import Mathlib

/-!
# caddy-storage-s3: a shallow embedding of the storage adapter

The adapter (`module.go`) implements the certmagic storage contract on top of
an S3 client.  The S3 client itself is an external library, so every method of
the adapter is translated as a function of the outcome of the client calls it
makes.

Go values are modelled as follows:
* `string` is `String`, `[]byte` is `List UInt8` (a nil slice is `[]`),
* `error` is `Option Err` (`none` is the nil error),
* `int64` sizes are `Int`, `time.Time` is an `Int` timestamp (zero value `0`),
* a receive-only channel is the number of entries already buffered in it
  (`len(ch)`) together with the sequence of entries it delivers until closed.
-/

namespace CaddyStorageS3

/-! ## Errors and client-side data -/

/-- Error values seen by the adapter. -/
inductive Err where
  /-- The sentinel `fs.ErrNotExist`. -/
  | fsErrNotExist
  /-- An S3 error response of the client, identified by its code (`NoSuchKey`, `AccessDenied`, ...). -/
  | response (code : String)
  /-- A network level failure of the client. -/
  | transport (msg : String)
  /-- The sentinel `context.Canceled`. -/
  | canceled
  /-- A configuration error built by the dispenser from a message. -/
  | config (msg : String)
  deriving DecidableEq, Repr

abbrev Bytes := List UInt8

/-- The stream handle returned by `GetObject`, described by what `ioutil.ReadAll`
obtains from it: the bytes read and the error that ended the read, if any. -/
structure Object where
  data : Bytes
  readErr : Option Err
  deriving DecidableEq, Repr

/-- The fields of `minio.ObjectInfo` the adapter reads. -/
structure ObjectInfo where
  Key : String
  LastModified : Int
  Size : Int
  Err : Option Err
  deriving DecidableEq, Repr

/-- The type `certmagic.KeyInfo`. -/
structure KeyInfo where
  Key : String
  Modified : Int
  Size : Int
  IsTerminal : Bool
  deriving DecidableEq, Repr

/-- The zero value `certmagic.KeyInfo{}`. -/
def KeyInfo.zero : KeyInfo := ⟨"", 0, 0, false⟩

/-- A receive-only channel of object infos as the adapter observes it: `buffered`
is `len(ch)` at the time the adapter evaluates it, `entries` is everything the
channel delivers before it is closed. -/
structure ObjectChan where
  buffered : Nat
  entries : List ObjectInfo
  deriving DecidableEq, Repr

/-- `ioutil.ReadAll` on an object stream. -/
def ReadAll (o : Object) : Bytes × Option Err := (o.data, o.readErr)

/-! ## The adapter

The S3 client is an external library.  Each method below takes the client
operation it calls as an argument: a function of the bucket and the object key
(for `ListObjects`: bucket, listing prefix and recursive flag) giving the
outcome of that call.  Operations that change the store return the new store
state `σ` next to the error. -/

/-- The exported fields of `S3Storage` and its lock table (`map[string]string`). -/
structure S3Storage where
  locks : String → Option String
  Host : String
  Bucket : String
  AccessID : String
  SecretKey : String
  Prefix : String
  Insecure : Bool

/-- The method `S3Storage.KeyPrefix`: `s.Prefix + "/" + key`. -/
def S3Storage.KeyPrefix (s : S3Storage) (key : String) : String :=
  s.Prefix ++ "/" ++ key

/-- The method `S3Storage.Filename`. -/
def S3Storage.Filename (s : S3Storage) (key : String) : String :=
  s.KeyPrefix key

/-- The method `S3Storage.Exists`: true exactly when `StatObject` reports no error. -/
def S3Storage.Exists (s : S3Storage) (StatObject : String → String → Except Err ObjectInfo)
    (key : String) : Bool :=
  let key := s.KeyPrefix key
  match StatObject s.Bucket key with
  | .ok _ => true
  | .error _ => false

/-- The method `S3Storage.Store`: one `PutObject` of the value with its length;
the error of the client is returned. -/
def S3Storage.Store {σ : Type} (s3 : S3Storage)
    (PutObject : String → String → Bytes → Int → σ × Option Err)
    (key : String) (value : Bytes) : σ × Option Err :=
  let key := s3.KeyPrefix key
  let length : Int := value.length
  PutObject s3.Bucket key value length

/-- The method `S3Storage.Load`: an error of `GetObject` is returned as it is,
an error of `ioutil.ReadAll` is replaced by `fs.ErrNotExist`. -/
def S3Storage.Load (s3 : S3Storage) (GetObject : String → String → Except Err Object)
    (key : String) : Bytes × Option Err :=
  let key := s3.KeyPrefix key
  match GetObject s3.Bucket key with
  | .error err => ([], some err)
  | .ok object =>
    match ReadAll object with
    | (b, some _) => (b, some Err.fsErrNotExist)
    | (b, none) => (b, none)

/-- The method `S3Storage.Delete`. -/
def S3Storage.Delete {σ : Type} (s3 : S3Storage)
    (RemoveObject : String → String → σ × Option Err) (key : String) : σ × Option Err :=
  let key := s3.KeyPrefix key
  RemoveObject s3.Bucket key

/-- The method `S3Storage.List`: the result slice is made with `len(objects)`
zero-valued strings, the `Key` of every delivered entry is appended to it, and
the returned error is always nil. -/
def S3Storage.List (s3 : S3Storage) (ListObjects : String → String → Bool → ObjectChan)
    (pfx : String) (recursive : Bool) : List String × Option Err :=
  let objects := ListObjects s3.Bucket pfx recursive
  let keys := List.replicate objects.buffered ""
  (objects.entries.foldl (fun keys object => keys ++ [object.Key]) keys, none)

/-- Go's `strings.HasSuffix`. -/
def HasSuffix (s suffix : String) : Bool :=
  suffix.data.isSuffixOf s.data

/-- The method `S3Storage.Stat`: on an error of `StatObject` the zero key info
and a nil error are returned. -/
def S3Storage.Stat (s3 : S3Storage) (StatObject : String → String → Except Err ObjectInfo)
    (key : String) : KeyInfo × Option Err :=
  let key := s3.KeyPrefix key
  match StatObject s3.Bucket key with
  | .error _ => (KeyInfo.zero, none)
  | .ok object =>
    ({ Key := object.Key
       Modified := object.LastModified
       Size := object.Size
       IsTerminal := HasSuffix object.Key "/" }, none)

/-- The method `S3Storage.Lock`: records the physical key in the lock table and
returns nil. -/
def S3Storage.Lock (s : S3Storage) (key : String) : S3Storage × Option Err :=
  let key := s.KeyPrefix key
  ({ s with locks := fun k => if k = key then some key else s.locks k }, none)

/-- The method `S3Storage.Unlock`: deletes the physical key from the lock table
and returns nil. -/
def S3Storage.Unlock (s : S3Storage) (key : String) : S3Storage × Option Err :=
  let key := s.KeyPrefix key
  ({ s with locks := fun k => if k = key then none else s.locks k }, none)

/-! ## Configuration -/

/-- The spellings `strconv.ParseBool` reads as true. -/
def parseBoolTrue : List String := ["1", "t", "T", "TRUE", "true", "True"]

/-- The spellings `strconv.ParseBool` reads as false. -/
def parseBoolFalse : List String := ["0", "f", "F", "FALSE", "false", "False"]

/-- Go's `strconv.ParseBool`.  The error is given by its text
`strconv.ParseBool: parsing <quoted input>: invalid syntax`, where `quote`
stands for `strconv.Quote`. -/
def ParseBool (quote : String → String) (str : String) : Bool × Option String :=
  if str ∈ parseBoolTrue then (true, none)
  else if str ∈ parseBoolFalse then (false, none)
  else (false, some ("strconv.ParseBool: parsing " ++ quote str ++ ": invalid syntax"))

/-- The body of the `switch key` statement of `UnmarshalCaddyfile` for one
option `key` with its argument `value`.  `d.Err(msg)` is `Err.config msg`
(the dispenser decorates the message with the position in the file). -/
def S3Storage.setOption (quote : String → String) (s : S3Storage) (key value : String) :
    Except Err S3Storage :=
  if key = "host" then .ok { s with Host := value }
  else if key = "bucket" then .ok { s with Bucket := value }
  else if key = "access_id" then .ok { s with AccessID := value }
  else if key = "secret_key" then .ok { s with SecretKey := value }
  else if key = "prefix" then .ok { s with Prefix := value }
  else if key = "insecure" then
    match ParseBool quote value with
    | (_, some err) => .error (Err.config ("Invalid usage of insecure in s3-storage config: " ++ err))
    | (insecure, none) => .ok { s with Insecure := insecure }
  else .ok s

/-- The dispenser as the loop of `UnmarshalCaddyfile` observes it: one entry per
successful `d.Next()`, holding `d.Val()` and the argument loaded by
`d.Args(&value)` (`none` when `d.Args` returns false); the list ends where
`d.Next()` returns false. -/
abbrev Dispenser := List (String × Option String)

/-- The method `S3Storage.UnmarshalCaddyfile`. -/
def S3Storage.UnmarshalCaddyfile (quote : String → String) (s : S3Storage) :
    Dispenser → Except Err S3Storage
  | [] => .ok s
  | (_, none) :: d => S3Storage.UnmarshalCaddyfile quote s d
  | (key, some value) :: d =>
    match s.setOption quote key value with
    | .error err => .error err
    | .ok s => S3Storage.UnmarshalCaddyfile quote s d

/-- The method `S3Storage.Provision`.  `Getenv` is `os.Getenv` (the empty
string for an unset variable), `quote` is `strconv.Quote`, and `minioNew` is
the outcome of `minio.New` for host, access id, secret key and the secure flag:
its error if any.  The listing made after a successful construction is only
logged. -/
def S3Storage.Provision (quote : String → String) (s : S3Storage) (Getenv : String → String)
    (minioNew : String → String → String → Bool → Option Err) : S3Storage × Option Err :=
  let s := if s.Host = "" then { s with Host := Getenv "S3_HOST" } else s
  let s := if s.Bucket = "" then { s with Bucket := Getenv "S3_BUCKET" } else s
  let s := if s.AccessID = "" then { s with AccessID := Getenv "S3_ACCESS_ID" } else s
  let s := if s.SecretKey = "" then { s with SecretKey := Getenv "S3_SECRET_KEY" } else s
  let s := if s.Prefix = "" then { s with Prefix := Getenv "S3_PREFIX" } else s
  let s :=
    if !s.Insecure then
      let insecure := Getenv "S3_INSECURE"
      if insecure ≠ "" then { s with Insecure := (ParseBool quote insecure).1 } else s
    else s
  let secure := !s.Insecure
  match minioNew s.Host s.AccessID s.SecretKey secure with
  | some err => (s, some err)
  | none => (s, none)

/-! ## An object store as a map

The store maps a bucket and a physical key to the bytes stored there.  The S3
client of the adapter hands out the object stream without a request and reports
a missing object when the stream is read (`eager = false` below); `eager = true`
is a client that would report it when the object is requested.  Before any
request the client checks the bucket and object names; `GetObjectChecked` and
`StatObjectChecked` put that check, given as a function, in front of the map. -/

abbrev ObjectStore := String → String → Option Bytes

/-- The error response of S3 for a missing object. -/
def noSuchKey : Err := Err.response "NoSuchKey"

/-- The call `PutObject` on the map: the object is replaced. -/
def ObjectStore.PutObject (st : ObjectStore) (bucket key : String) (value : Bytes) (_length : Int) :
    ObjectStore × Option Err :=
  (fun b k => if b = bucket ∧ k = key then some value else st b k, none)

/-- The call `GetObject` on the map. -/
def ObjectStore.GetObject (eager : Bool) (st : ObjectStore) (bucket key : String) :
    Except Err Object :=
  match st bucket key with
  | some v => .ok ⟨v, none⟩
  | none => if eager then .error noSuchKey else .ok ⟨[], some noSuchKey⟩

/-- The call `StatObject` on the map. -/
def ObjectStore.StatObject (st : ObjectStore) (bucket key : String) : Except Err ObjectInfo :=
  match st bucket key with
  | some v => .ok ⟨key, 0, v.length, none⟩
  | none => .error noSuchKey

/-- The call `RemoveObject` on the map. -/
def ObjectStore.RemoveObject (st : ObjectStore) (bucket key : String) : ObjectStore × Option Err :=
  (fun b k => if b = bucket ∧ k = key then none else st b k, none)

/-- The store without objects. -/
def ObjectStore.empty : ObjectStore := fun _ _ => none

/-- The call `GetObject` of the client in front of the map: when the check of the
bucket and object names gives an error, that error is returned and no stream is
handed out; otherwise the stream is handed out and a missing object is reported
when it is read. -/
def ObjectStore.GetObjectChecked (check : String → String → Option Err) (st : ObjectStore)
    (bucket key : String) : Except Err Object :=
  match check bucket key with
  | some err => .error err
  | none => ObjectStore.GetObject false st bucket key

/-- The call `StatObject` of the client in front of the map, after the same check
of the names. -/
def ObjectStore.StatObjectChecked (check : String → String → Option Err) (st : ObjectStore)
    (bucket key : String) : Except Err ObjectInfo :=
  match check bucket key with
  | some err => .error err
  | none => st.StatObject bucket key

/-- The part of the client's name check used in the examples: an empty bucket
name is rejected.  (The client rejects further names; the theorems below hold
for every check.) -/
def checkBucketName (bucket _key : String) : Option Err :=
  if bucket = "" then some (Err.response "InvalidBucketName") else none

/-- Whether a dispenser holds an `insecure` option with an argument. -/
def hasInsecureArgument (d : Dispenser) : Bool :=
  d.any (fun entry => entry.1 == "insecure" && entry.2.isSome)

/-- A configured adapter used in the examples: bucket `certs`, prefix `acme`. -/
def exampleStorage : S3Storage :=
  { locks := fun _ => none, Host := "s3.local", Bucket := "certs", AccessID := "id",
    SecretKey := "secret", Prefix := "acme", Insecure := false }

/-- The reading of "a case-insensitive spelling of true or false": the value,
with its letters lowered, is `true` or `false`. -/
def caseInsensitiveBool (v : String) : Bool :=
  let lowered := String.mk (v.data.map Char.toLower)
  lowered = "true" || lowered = "false"

/-- The function `strconv.Quote` on strings of printable ASCII characters
without a double quote or a backslash: the string between double quotes. -/
def quoteASCII (v : String) : String := "\"" ++ v ++ "\""

/-- The boolean an environment variable stands for: true exactly for the
spellings `strconv.ParseBool` reads as true (an unset, empty or malformed value
counts as false). -/
def envBool (v : String) : Bool := decide (v ∈ ["1", "t", "T", "TRUE", "true", "True"])

/-! ## Key mapping -/

/-- Appending to a fixed string is injective. -/
theorem String.append_left_cancel (p a b : String) (h : p ++ a = p ++ b) : a = b := by
  have hd : (p ++ a).data = (p ++ b).data := by rw [h]
  rw [String.data_append, String.data_append] at hd
  exact String.ext (List.append_cancel_left hd)

/-- C10: `Filename` and `KeyPrefix` are the prefix, a slash and the key, joined
unchanged; with an empty prefix the result is the slash followed by the key; and
for a fixed prefix the mapping is injective in the key. -/
theorem KeyPrefix_spec (s : S3Storage) (k : String) :
    s.Filename k = s.Prefix ++ "/" ++ k ∧
    s.KeyPrefix k = s.Prefix ++ "/" ++ k ∧
    (s.KeyPrefix k).data = s.Prefix.data ++ '/' :: k.data ∧
    ({ s with Prefix := "" } : S3Storage).Filename k = "/" ++ k ∧
    (({ s with Prefix := "" } : S3Storage).Filename k).data.head? = some '/' ∧
    Function.Injective s.KeyPrefix ∧ Function.Injective s.Filename := by
  have hinj : Function.Injective s.KeyPrefix := by
    intro a b hab
    exact String.append_left_cancel _ a b hab
  refine ⟨rfl, rfl, ?_, ?_, ?_, hinj, hinj⟩
  · simp [S3Storage.KeyPrefix, String.data_append]
  · simp [S3Storage.Filename, S3Storage.KeyPrefix]
  · simp [S3Storage.Filename, S3Storage.KeyPrefix, String.data_append]

/-! ## Store and Load -/

/-- `Load` when `GetObject` fails: the error of the client is returned as it is. -/
theorem Load_of_get_error (s3 : S3Storage) (get : String → String → Except Err Object)
    (k : String) (e : Err) (h : get s3.Bucket (s3.KeyPrefix k) = .error e) :
    s3.Load get k = ([], some e) := by
  simp [S3Storage.Load, h]

/-- `Load` when the stream is read to its end. -/
theorem Load_of_read_ok (s3 : S3Storage) (get : String → String → Except Err Object)
    (k : String) (b : Bytes) (h : get s3.Bucket (s3.KeyPrefix k) = .ok ⟨b, none⟩) :
    s3.Load get k = (b, none) := by
  simp [S3Storage.Load, h, ReadAll]

/-- `Load` when reading the stream fails: the error is `fs.ErrNotExist`. -/
theorem Load_of_read_error (s3 : S3Storage) (get : String → String → Except Err Object)
    (k : String) (b : Bytes) (e : Err) (h : get s3.Bucket (s3.KeyPrefix k) = .ok ⟨b, some e⟩) :
    s3.Load get k = (b, some Err.fsErrNotExist) := by
  simp [S3Storage.Load, h, ReadAll]

/-- C1: on the map store, `Store(k, v)` returns nil and a following `Load(k)`
returns exactly `v` with a nil error, whatever the prefix, the key, the value,
the earlier state of the store and the way the client reports missing objects;
in particular after `Store(k, v1); Store(k, v2)` the value loaded is `v2`. -/
theorem Store_Load (eager : Bool) (s3 : S3Storage) (st : ObjectStore) (k : String)
    (v1 v2 : Bytes) :
    (s3.Store st.PutObject k v2).2 = none ∧
    s3.Load (ObjectStore.GetObject eager (s3.Store st.PutObject k v2).1) k = (v2, none) ∧
    s3.Load (ObjectStore.GetObject eager
      (s3.Store (s3.Store st.PutObject k v1).1.PutObject k v2).1) k = (v2, none) := by
  refine ⟨rfl, ?_, ?_⟩
  · apply Load_of_read_ok
    simp [S3Storage.Store, ObjectStore.PutObject, ObjectStore.GetObject]
  · apply Load_of_read_ok
    simp [S3Storage.Store, ObjectStore.PutObject, ObjectStore.GetObject]

/-- C2 (as stated, refuted): the adapter is configured without a bucket, the
store holds no object for the key `sites/unknown/cert.pem`, and the client
rejects the empty bucket name in `GetObject`; `Load` returns that error, which
is not `fs.ErrNotExist`. -/
theorem Load_missing_invalid_bucket_counterexample :
    ObjectStore.empty ({ exampleStorage with Bucket := "" } : S3Storage).Bucket
      (({ exampleStorage with Bucket := "" } : S3Storage).KeyPrefix "sites/unknown/cert.pem")
      = none ∧
    ({ exampleStorage with Bucket := "" } : S3Storage).Load
      (ObjectStore.GetObjectChecked checkBucketName ObjectStore.empty) "sites/unknown/cert.pem"
      = ([], some (Err.response "InvalidBucketName")) ∧
    (({ exampleStorage with Bucket := "" } : S3Storage).Load
      (ObjectStore.GetObjectChecked checkBucketName ObjectStore.empty)
      "sites/unknown/cert.pem").2 ≠ some Err.fsErrNotExist := by
  refine ⟨rfl, ?_, ?_⟩
  · rfl
  · simp [S3Storage.Load, ObjectStore.GetObjectChecked, checkBucketName, exampleStorage]

/-- C2 (amended): for a key whose physical key has no object in the store, `Load`
never returns a nil error and `Exists` returns false; `Load` returns
`fs.ErrNotExist` whenever the client accepts the bucket and object names (the
missing object is then reported while the stream is read), and when the client
rejects the names in `GetObject`, `Load` returns that error unchanged. -/
theorem Load_Exists_missing (check : String → String → Option Err) (s3 : S3Storage)
    (st : ObjectStore) (k : String) (h : st s3.Bucket (s3.KeyPrefix k) = none) :
    (check s3.Bucket (s3.KeyPrefix k) = none →
      s3.Load (ObjectStore.GetObjectChecked check st) k = ([], some Err.fsErrNotExist)) ∧
    (∀ e, check s3.Bucket (s3.KeyPrefix k) = some e →
      s3.Load (ObjectStore.GetObjectChecked check st) k = ([], some e)) ∧
    (s3.Load (ObjectStore.GetObjectChecked check st) k).2 ≠ none ∧
    s3.Exists (ObjectStore.StatObjectChecked check st) k = false := by
  have hok : check s3.Bucket (s3.KeyPrefix k) = none →
      s3.Load (ObjectStore.GetObjectChecked check st) k = ([], some Err.fsErrNotExist) := by
    intro hc
    exact Load_of_read_error s3 _ k [] noSuchKey
      (by simp [ObjectStore.GetObjectChecked, ObjectStore.GetObject, hc, h])
  have hrej : ∀ e, check s3.Bucket (s3.KeyPrefix k) = some e →
      s3.Load (ObjectStore.GetObjectChecked check st) k = ([], some e) := by
    intro e hc
    exact Load_of_get_error s3 _ k e (by simp [ObjectStore.GetObjectChecked, hc])
  refine ⟨hok, hrej, ?_, ?_⟩
  · cases hc : check s3.Bucket (s3.KeyPrefix k) with
    | none => rw [hok hc]; simp
    | some e => rw [hrej e hc]; simp
  · cases hc : check s3.Bucket (s3.KeyPrefix k) with
    | none => simp [S3Storage.Exists, ObjectStore.StatObjectChecked, ObjectStore.StatObject, hc, h]
    | some e => simp [S3Storage.Exists, ObjectStore.StatObjectChecked, hc]

/-- Witness for C2: the key `sites/unknown/cert.pem` in the empty store, with the
bucket `certs`, whose name the client accepts. -/
theorem Load_Exists_missing_witness :
    ObjectStore.empty exampleStorage.Bucket (exampleStorage.KeyPrefix "sites/unknown/cert.pem")
      = none ∧
    checkBucketName exampleStorage.Bucket (exampleStorage.KeyPrefix "sites/unknown/cert.pem")
      = none ∧
    exampleStorage.Load (ObjectStore.GetObjectChecked checkBucketName ObjectStore.empty)
      "sites/unknown/cert.pem" = ([], some Err.fsErrNotExist) ∧
    exampleStorage.Exists (ObjectStore.StatObjectChecked checkBucketName ObjectStore.empty)
      "sites/unknown/cert.pem" = false :=
  ⟨rfl, by decide,
    (Load_Exists_missing checkBucketName exampleStorage ObjectStore.empty
      "sites/unknown/cert.pem" rfl).1 (by decide),
    (Load_Exists_missing checkBucketName exampleStorage ObjectStore.empty
      "sites/unknown/cert.pem" rfl).2.2.2⟩

/-- C3 (the code at the failing input): every error met while the object stream
is read is replaced by `fs.ErrNotExist`; a cancellation or a transport failure
raised there is not returned to the caller. -/
theorem Load_read_error_is_replaced (s3 : S3Storage) (k : String) (b : Bytes) (e : Err) :
    s3.Load (fun _ _ => .ok ⟨b, some e⟩) k = (b, some Err.fsErrNotExist) ∧
    (s3.Load (fun _ _ => .ok ⟨[], some Err.canceled⟩) k).2 ≠ some Err.canceled ∧
    (s3.Load (fun _ _ => .ok ⟨[], some (Err.transport "connection reset by peer")⟩) k).2
      ≠ some (Err.transport "connection reset by peer") := by
  refine ⟨Load_of_read_error s3 _ k b e rfl, ?_, ?_⟩
  · rw [Load_of_read_error s3 _ k [] Err.canceled rfl]; simp
  · rw [Load_of_read_error s3 _ k [] (Err.transport "connection reset by peer") rfl]; simp

/-! ## Locks -/

/-- C4 (the code at the failing input): `Lock(k)` returns nil and records the
physical key as held; a second `Lock(k)` made in that state, with no `Unlock(k)`
in between, returns nil as well. -/
theorem Lock_twice_returns_nil (s : S3Storage) (k : String) :
    (s.Lock k).2 = none ∧
    (s.Lock k).1.locks (s.KeyPrefix k) = some (s.KeyPrefix k) ∧
    ((s.Lock k).1.Lock k).2 = none ∧
    ((s.Lock k).1.Lock k).1.locks (s.KeyPrefix k) = some (s.KeyPrefix k) := by
  simp [S3Storage.Lock, S3Storage.KeyPrefix]

/-! ## Listing -/

/-- Appending the keys of the entries one by one. -/
theorem foldl_append_keys (entries : List ObjectInfo) (keys : List String) :
    entries.foldl (fun keys object => keys ++ [object.Key]) keys
      = keys ++ entries.map (fun object => object.Key) := by
  induction entries generalizing keys with
  | nil => simp
  | cons o rest ih => simp [List.foldl_cons, ih]

/-- The result of `List`: as many empty strings as the channel held when its
length was taken, then the key of every entry delivered, and a nil error. -/
theorem List_eq (s3 : S3Storage) (lst : String → String → Bool → ObjectChan) (pfx : String)
    (recursive : Bool) :
    s3.List lst pfx recursive
      = (List.replicate (lst s3.Bucket pfx recursive).buffered ""
          ++ (lst s3.Bucket pfx recursive).entries.map (fun object => object.Key), none) := by
  simp [S3Storage.List, foldl_append_keys]

/-- When the channel holds nothing at the time its length is taken, `List`
returns the keys of the delivered entries, in the order delivered. -/
theorem List_unbuffered (s3 : S3Storage) (lst : String → String → Bool → ObjectChan)
    (pfx : String) (recursive : Bool) (h : (lst s3.Bucket pfx recursive).buffered = 0) :
    s3.List lst pfx recursive
      = ((lst s3.Bucket pfx recursive).entries.map (fun object => object.Key), none) := by
  rw [List_eq, h]
  simp

/-- C5 (the code at the failing input): when the channel already holds its first
entry at the time its length is taken, the sequence returned by `List` starts
with an empty string that is the key of no listed object. -/
theorem List_buffered_entry (s3 : S3Storage) (pfx : String) (recursive : Bool) :
    s3.List (fun _ _ _ => ⟨1, [⟨"acme/a", 0, 42, none⟩]⟩) pfx recursive
      = (["", "acme/a"], none) ∧
    (s3.List (fun _ _ _ => ⟨1, [⟨"acme/a", 0, 42, none⟩]⟩) pfx recursive).1 ≠ ["acme/a"] := by
  rw [List_eq]
  simp

/-- C6 (the code at the failing input): the error returned by `List` is nil for
every listing, also for one whose entries carry an error; such an entry adds an
empty key to the result. -/
theorem List_error_is_nil (s3 : S3Storage) (lst : String → String → Bool → ObjectChan)
    (pfx : String) (recursive : Bool) :
    (s3.List lst pfx recursive).2 = none ∧
    s3.List (fun _ _ _ => ⟨0, [⟨"", 0, 0, some (Err.transport "connection refused")⟩]⟩)
      pfx recursive = ([""], none) := by
  constructor
  · rw [List_eq]
  · rw [List_eq]
    simp

/-! ## Stat -/

/-- C7 (as stated, refuted): for the key `sites/`, whose file name ends with a
slash, `Stat` after a failed `StatObject` returns a key info that is not
terminal. -/
theorem Stat_error_counterexample :
    HasSuffix (exampleStorage.Filename "sites/") "/" = true ∧
    (exampleStorage.Stat (fun _ _ => .error (Err.transport "timeout")) "sites/").1.IsTerminal
      = false := by
  constructor
  · decide
  · rfl

/-- C7 (amended): when `StatObject` succeeds and reports the object under its
physical key, the key info returned by `Stat` is terminal if and only if
`Filename(k)` ends with a slash; when `StatObject` fails, the key info is the
zero value, which is not terminal, and the error is nil. -/
theorem Stat_IsTerminal (s3 : S3Storage) (head : String → String → Except Err ObjectInfo)
    (k : String) :
    (∀ o, head s3.Bucket (s3.KeyPrefix k) = .ok o → o.Key = s3.KeyPrefix k →
      ((s3.Stat head k).1.IsTerminal = true ↔ HasSuffix (s3.Filename k) "/" = true)) ∧
    (∀ e, head s3.Bucket (s3.KeyPrefix k) = .error e →
      s3.Stat head k = (KeyInfo.zero, none) ∧ (s3.Stat head k).1.IsTerminal = false) := by
  constructor
  · intro o ho hkey
    simp [S3Storage.Stat, ho, hkey, S3Storage.Filename]
  · intro e he
    simp [S3Storage.Stat, he, KeyInfo.zero]

/-- Witness for C7: the stored key `sites/example.com/cert.pem` and the missing
key `sites/` on the map store. -/
theorem Stat_IsTerminal_witness :
    ((exampleStorage.Stat (ObjectStore.PutObject ObjectStore.empty "certs"
        "acme/sites/example.com/cert.pem" [1, 2, 3] 3).1.StatObject
        "sites/example.com/cert.pem").1.IsTerminal = true ↔
      HasSuffix (exampleStorage.Filename "sites/example.com/cert.pem") "/" = true) ∧
    (exampleStorage.Stat ObjectStore.empty.StatObject "sites/").1.IsTerminal = false :=
  ⟨(Stat_IsTerminal exampleStorage _ "sites/example.com/cert.pem").1
      ⟨"acme/sites/example.com/cert.pem", 0, 3, none⟩ (by rfl) (by decide),
    ((Stat_IsTerminal exampleStorage ObjectStore.empty.StatObject "sites/").2
      noSuchKey (by rfl)).2⟩

/-! ## Configuration -/

/-- `ParseBool` on a spelling of true. -/
theorem ParseBool_true (quote : String → String) (v : String) (h : v ∈ parseBoolTrue) :
    ParseBool quote v = (true, none) := by
  simp [ParseBool, h]

/-- `ParseBool` on a spelling of false. -/
theorem ParseBool_false (quote : String → String) (v : String) (h : v ∈ parseBoolFalse) :
    ParseBool quote v = (false, none) := by
  have hne : v ∉ parseBoolTrue := by
    intro ht
    simp only [parseBoolTrue, parseBoolFalse, List.mem_cons, List.mem_singleton,
      List.mem_nil_iff, or_false] at h ht
    rcases h with h | h | h | h | h | h <;> subst h <;> revert ht <;> decide
  simp [ParseBool, h, hne]

/-- `ParseBool` on any other string. -/
theorem ParseBool_other (quote : String → String) (v : String) (ht : v ∉ parseBoolTrue)
    (hf : v ∉ parseBoolFalse) :
    ParseBool quote v
      = (false, some ("strconv.ParseBool: parsing " ++ quote v ++ ": invalid syntax")) := by
  simp [ParseBool, ht, hf]

/-- C8 (as stated, refuted): in the block `s3`, opening brace, `insecure <value>`,
closing brace, the value `tRUE` is a case-insensitive spelling of `true` and is
rejected; the value `1` is no spelling of `true` or `false` and is accepted,
setting `Insecure`. -/
theorem UnmarshalCaddyfile_insecure_counterexample :
    caseInsensitiveBool "tRUE" = true ∧
    exampleStorage.UnmarshalCaddyfile quoteASCII
        [("s3", none), ("\x7b", none), ("insecure", some "tRUE"), ("\x7d", none)]
      = .error (Err.config
          "Invalid usage of insecure in s3-storage config: strconv.ParseBool: parsing \"tRUE\": invalid syntax") ∧
    caseInsensitiveBool "1" = false ∧
    exampleStorage.UnmarshalCaddyfile quoteASCII
        [("s3", none), ("\x7b", none), ("insecure", some "1"), ("\x7d", none)]
      = .ok { exampleStorage with Insecure := true } := by
  refine ⟨by decide, ?_, by decide, ?_⟩
  · simp [S3Storage.UnmarshalCaddyfile, S3Storage.setOption,
      ParseBool_other quoteASCII "tRUE" (by decide) (by decide)]
    decide
  · simp [S3Storage.UnmarshalCaddyfile, S3Storage.setOption,
      ParseBool_true quoteASCII "1" (by decide)]

/-- The loop on a dispenser made of two parts: the second part is read from the
state the first part leaves, unless the first part fails. -/
theorem UnmarshalCaddyfile_append (quote : String → String) (s : S3Storage)
    (pre post : Dispenser) :
    s.UnmarshalCaddyfile quote (pre ++ post)
      = match s.UnmarshalCaddyfile quote pre with
        | .error err => .error err
        | .ok s1 => s1.UnmarshalCaddyfile quote post := by
  induction pre generalizing s with
  | nil => simp [S3Storage.UnmarshalCaddyfile]
  | cons entry rest ih =>
    obtain ⟨key, arg⟩ := entry
    cases arg with
    | none => simpa [S3Storage.UnmarshalCaddyfile] using ih s
    | some value =>
      cases hopt : s.setOption quote key value with
      | error err => simp [S3Storage.UnmarshalCaddyfile, hopt]
      | ok s1 => simpa [S3Storage.UnmarshalCaddyfile, hopt] using ih s1

/-- The loop on a dispenser that starts with the `insecure` option and its
argument. -/
theorem UnmarshalCaddyfile_cons_insecure (quote : String → String) (s : S3Storage) (v : String)
    (post : Dispenser) :
    s.UnmarshalCaddyfile quote (("insecure", some v) :: post)
      = match ParseBool quote v with
        | (_, some err) =>
          .error (Err.config ("Invalid usage of insecure in s3-storage config: " ++ err))
        | (insecure, none) =>
          ({ s with Insecure := insecure } : S3Storage).UnmarshalCaddyfile quote post := by
  rcases hp : ParseBool quote v with ⟨insecure, _ | err⟩ <;>
    simp [S3Storage.UnmarshalCaddyfile, S3Storage.setOption, hp]

/-- An option other than `insecure` is always accepted and leaves `Insecure` as
it is. -/
theorem setOption_other (quote : String → String) (s : S3Storage) (key value : String)
    (h : key ≠ "insecure") :
    ∃ s1, s.setOption quote key value = .ok s1 ∧ s1.Insecure = s.Insecure := by
  unfold S3Storage.setOption
  split_ifs <;> simp_all

/-- A dispenser without an `insecure` argument is read without an error and
leaves `Insecure` as it is. -/
theorem UnmarshalCaddyfile_other (quote : String → String) (s : S3Storage) (d : Dispenser)
    (h : hasInsecureArgument d = false) :
    ∃ s1, s.UnmarshalCaddyfile quote d = .ok s1 ∧ s1.Insecure = s.Insecure := by
  induction d generalizing s with
  | nil => exact ⟨s, rfl, rfl⟩
  | cons entry rest ih =>
    obtain ⟨key, arg⟩ := entry
    cases arg with
    | none =>
      have hrest : hasInsecureArgument rest = false := by
        simpa [hasInsecureArgument] using h
      simpa [S3Storage.UnmarshalCaddyfile] using ih s hrest
    | some value =>
      have hkey : key ≠ "insecure" := by
        intro hk
        simp [hasInsecureArgument, hk] at h
      have hrest : hasInsecureArgument rest = false := by
        simp only [hasInsecureArgument, List.any_cons, Bool.or_eq_false_iff] at h
        simpa [hasInsecureArgument] using h.2
      obtain ⟨s1, hs1, hins⟩ := setOption_other quote s key value hkey
      obtain ⟨s2, hs2, hins2⟩ := ih s1 hrest
      exact ⟨s2, by simp [S3Storage.UnmarshalCaddyfile, hs1, hs2], by rw [hins2, hins]⟩

/-- C8 (amended): wherever the `insecure` option stands in the configuration
(after options `pre` that were read without an error, before options `post`),
its value is accepted exactly when it is one of `1`, `t`, `T`, `TRUE`, `true`,
`True` (then `Insecure` is set to true and reading goes on with `post`) or one
of `0`, `f`, `F`, `FALSE`, `false`, `False` (then `Insecure` is set to false and
reading goes on with `post`); when no later `insecure` option follows, no error
is returned and `Insecure` has that boolean at the end; every other value makes
configuration fail with an error whose message starts with
`Invalid usage of insecure in s3-storage config: `; and options before it that
are not `insecure` never fail. -/
theorem UnmarshalCaddyfile_insecure (quote : String → String) (s : S3Storage)
    (pre post : Dispenser) (v : String) :
    (∀ s1, s.UnmarshalCaddyfile quote pre = .ok s1 →
      v ∈ ["1", "t", "T", "TRUE", "true", "True"] →
      s.UnmarshalCaddyfile quote (pre ++ ("insecure", some v) :: post)
        = ({ s1 with Insecure := true } : S3Storage).UnmarshalCaddyfile quote post) ∧
    (∀ s1, s.UnmarshalCaddyfile quote pre = .ok s1 →
      v ∈ ["0", "f", "F", "FALSE", "false", "False"] →
      s.UnmarshalCaddyfile quote (pre ++ ("insecure", some v) :: post)
        = ({ s1 with Insecure := false } : S3Storage).UnmarshalCaddyfile quote post) ∧
    (∀ s1, s.UnmarshalCaddyfile quote pre = .ok s1 →
      v ∉ ["1", "t", "T", "TRUE", "true", "True"] →
      v ∉ ["0", "f", "F", "FALSE", "false", "False"] →
      s.UnmarshalCaddyfile quote (pre ++ ("insecure", some v) :: post)
        = .error (Err.config ("Invalid usage of insecure in s3-storage config: "
            ++ ("strconv.ParseBool: parsing " ++ quote v ++ ": invalid syntax")))) ∧
    (∀ s1, s.UnmarshalCaddyfile quote pre = .ok s1 → hasInsecureArgument post = false →
      v ∈ ["1", "t", "T", "TRUE", "true", "True"] →
      ∃ s2, s.UnmarshalCaddyfile quote (pre ++ ("insecure", some v) :: post) = .ok s2 ∧
        s2.Insecure = true) ∧
    (∀ s1, s.UnmarshalCaddyfile quote pre = .ok s1 → hasInsecureArgument post = false →
      v ∈ ["0", "f", "F", "FALSE", "false", "False"] →
      ∃ s2, s.UnmarshalCaddyfile quote (pre ++ ("insecure", some v) :: post) = .ok s2 ∧
        s2.Insecure = false) ∧
    (hasInsecureArgument pre = false → ∃ s1, s.UnmarshalCaddyfile quote pre = .ok s1) := by
  have htrue : ∀ s1, s.UnmarshalCaddyfile quote pre = .ok s1 →
      v ∈ ["1", "t", "T", "TRUE", "true", "True"] →
      s.UnmarshalCaddyfile quote (pre ++ ("insecure", some v) :: post)
        = ({ s1 with Insecure := true } : S3Storage).UnmarshalCaddyfile quote post := by
    intro s1 hpre hv
    rw [UnmarshalCaddyfile_append, hpre]
    simp only []
    rw [UnmarshalCaddyfile_cons_insecure, ParseBool_true quote v hv]
  have hfalse : ∀ s1, s.UnmarshalCaddyfile quote pre = .ok s1 →
      v ∈ ["0", "f", "F", "FALSE", "false", "False"] →
      s.UnmarshalCaddyfile quote (pre ++ ("insecure", some v) :: post)
        = ({ s1 with Insecure := false } : S3Storage).UnmarshalCaddyfile quote post := by
    intro s1 hpre hv
    rw [UnmarshalCaddyfile_append, hpre]
    simp only []
    rw [UnmarshalCaddyfile_cons_insecure, ParseBool_false quote v hv]
  refine ⟨htrue, hfalse, ?_, ?_, ?_, ?_⟩
  · intro s1 hpre ht hf
    rw [UnmarshalCaddyfile_append, hpre]
    simp only []
    rw [UnmarshalCaddyfile_cons_insecure, ParseBool_other quote v ht hf]
  · intro s1 hpre hpost hv
    obtain ⟨s2, hs2, hins⟩ :=
      UnmarshalCaddyfile_other quote ({ s1 with Insecure := true } : S3Storage) post hpost
    exact ⟨s2, by rw [htrue s1 hpre hv, hs2], hins⟩
  · intro s1 hpre hpost hv
    obtain ⟨s2, hs2, hins⟩ :=
      UnmarshalCaddyfile_other quote ({ s1 with Insecure := false } : S3Storage) post hpost
    exact ⟨s2, by rw [hfalse s1 hpre hv, hs2], hins⟩
  · intro hpre
    obtain ⟨s1, hs1, _⟩ := UnmarshalCaddyfile_other quote s pre hpre
    exact ⟨s1, hs1⟩

/-- Witness for C8: the block `s3`, opening brace, `host s3.local`,
`bucket certs`, `insecure <value>`, `prefix acme`, closing brace, with the
values `True`, `0` and `yes`. -/
theorem UnmarshalCaddyfile_insecure_witness :
    (∃ s2, exampleStorage.UnmarshalCaddyfile quoteASCII
        ([("s3", none), ("\x7b", none), ("host", some "s3.local"), ("bucket", some "certs")]
          ++ ("insecure", some "True") :: [("prefix", some "acme"), ("\x7d", none)]) = .ok s2 ∧
      s2.Insecure = true) ∧
    (∃ s2, exampleStorage.UnmarshalCaddyfile quoteASCII
        ([("s3", none), ("\x7b", none), ("host", some "s3.local"), ("bucket", some "certs")]
          ++ ("insecure", some "0") :: [("prefix", some "acme"), ("\x7d", none)]) = .ok s2 ∧
      s2.Insecure = false) ∧
    exampleStorage.UnmarshalCaddyfile quoteASCII
        ([("s3", none), ("\x7b", none), ("host", some "s3.local"), ("bucket", some "certs")]
          ++ ("insecure", some "yes") :: [("prefix", some "acme"), ("\x7d", none)])
      = .error (Err.config ("Invalid usage of insecure in s3-storage config: "
          ++ ("strconv.ParseBool: parsing " ++ quoteASCII "yes" ++ ": invalid syntax"))) :=
  ⟨(UnmarshalCaddyfile_insecure quoteASCII exampleStorage
      [("s3", none), ("\x7b", none), ("host", some "s3.local"), ("bucket", some "certs")]
      [("prefix", some "acme"), ("\x7d", none)] "True").2.2.2.1
      ({ exampleStorage with Host := "s3.local", Bucket := "certs" }) (by rfl) (by decide)
      (by decide),
    (UnmarshalCaddyfile_insecure quoteASCII exampleStorage
      [("s3", none), ("\x7b", none), ("host", some "s3.local"), ("bucket", some "certs")]
      [("prefix", some "acme"), ("\x7d", none)] "0").2.2.2.2.1
      ({ exampleStorage with Host := "s3.local", Bucket := "certs" }) (by rfl) (by decide)
      (by decide),
    (UnmarshalCaddyfile_insecure quoteASCII exampleStorage
      [("s3", none), ("\x7b", none), ("host", some "s3.local"), ("bucket", some "certs")]
      [("prefix", some "acme"), ("\x7d", none)] "yes").2.2.1
      ({ exampleStorage with Host := "s3.local", Bucket := "certs" }) (by rfl) (by decide)
      (by decide)⟩

/-- C9: after `Provision`, whatever the configuration, the environment and the
outcome of the client construction, each of `Host`, `Bucket`, `AccessID`,
`SecretKey` and `Prefix` is the configured value when that value is not empty
and the value of its environment variable otherwise, and `Insecure` is true when
configured true and the boolean of `S3_INSECURE` otherwise. -/
theorem Provision_environment (quote : String → String) (s : S3Storage)
    (Getenv : String → String) (minioNew : String → String → String → Bool → Option Err) :
    (s.Provision quote Getenv minioNew).1.Host
      = (if s.Host = "" then Getenv "S3_HOST" else s.Host) ∧
    (s.Provision quote Getenv minioNew).1.Bucket
      = (if s.Bucket = "" then Getenv "S3_BUCKET" else s.Bucket) ∧
    (s.Provision quote Getenv minioNew).1.AccessID
      = (if s.AccessID = "" then Getenv "S3_ACCESS_ID" else s.AccessID) ∧
    (s.Provision quote Getenv minioNew).1.SecretKey
      = (if s.SecretKey = "" then Getenv "S3_SECRET_KEY" else s.SecretKey) ∧
    (s.Provision quote Getenv minioNew).1.Prefix
      = (if s.Prefix = "" then Getenv "S3_PREFIX" else s.Prefix) ∧
    (s.Provision quote Getenv minioNew).1.Insecure
      = (if s.Insecure = true then true else envBool (Getenv "S3_INSECURE")) := by
  have hfst : ∀ (t : S3Storage) (o : Option Err),
      (match o with
        | some err => (t, some err)
        | none => (t, none)).1 = t := by
    intro t o
    cases o <;> rfl
  have henv : ∀ v : String, v ≠ "" → (ParseBool quote v).1 = envBool v := by
    intro v _
    by_cases ht : v ∈ parseBoolTrue
    · rw [ParseBool_true quote v ht]
      simpa [envBool, parseBoolTrue] using ht
    · have hb : envBool v = false := by simpa [envBool, parseBoolTrue] using ht
      rw [hb]
      by_cases hf : v ∈ parseBoolFalse
      · rw [ParseBool_false quote v hf]
      · rw [ParseBool_other quote v ht hf]
  have hempty : envBool "" = false := by decide
  obtain ⟨locks, host, bucket, accessID, secretKey, pfx, insecure⟩ := s
  by_cases h1 : host = "" <;> by_cases h2 : bucket = "" <;> by_cases h3 : accessID = "" <;>
    by_cases h4 : secretKey = "" <;> by_cases h5 : pfx = "" <;> cases insecure <;>
    by_cases h6 : Getenv "S3_INSECURE" = "" <;>
    simp [S3Storage.Provision, hfst, h1, h2, h3, h4, h5, h6, henv, hempty]

end CaddyStorageS3
